import Mathlib

/-!
Verification of the lingerclient library (src/lingerclient/lingerclient.py)
against its natural-language specification.

The development shallowly embeds the parts of the source that the claims are
about:

* `runLoop`/`nextRun` embed one invocation of `AsyncStream.next` (lines 47-82),
  driven by a script of fetch outcomes (one per iteration of the polling loop).
* `incRun` embeds `AsyncStream._inc` (lines 33-38).
* `decodeGetResponse` embeds the response handling of `AsyncLingerClient.get`
  (lines 204-219).
* `initClient`, `close`, `testClosed` and the one-shot operations embed the
  `AsyncLingerClient` facade (lines 126-294).  Each one-shot operation is
  modelled as the list of HTTP requests the call issues (or the Python
  exception it raises before issuing any); response decoding is modelled
  separately by `decodeGetResponse`.

Elapsed wall-clock time of a fetch is modelled in integral milliseconds
(the source compares a float second count against 0.1; the model compares a
millisecond count against 100).
-/

namespace Lingerclient

/-- A single outcome of `self.client._get(self.channel)` (line 59) as observed
by one iteration of the polling loop of `AsyncStream.next`:
either a normal return carrying an optional message and the elapsed time of the
fetch, a `tornado.httpclient.HTTPError` carrying its status code, message and
the elapsed time, or any other exception (the `except Exception` branch,
line 63) carrying its description. -/
inductive FetchOutcome (M : Type) where
  | ok (msg : Option M) (elapsedMs : Nat)
  | httpError (code : Nat) (message : String) (elapsedMs : Nat)
  | connError (message : String)
deriving DecidableEq

/-- An error propagated to the caller of `next()`: a `tornado` `HTTPError`
with its code and message. -/
inductive LError where
  | httpError (code : Nat) (message : String)
deriving DecidableEq

/-- The loop-local state of one `AsyncStream.next` invocation: the
`self.timeout` and `self.retries` attributes, and the local variable `msg`
(`none` models the variable being unbound, as it is before the first
successful assignment on line 59). -/
structure LoopState (M : Type) where
  timeout : Nat
  retries : Nat
  msgVar : Option (Option M)
deriving DecidableEq

/-- The result of one `AsyncStream.next` invocation. `nameError` models the
`UnboundLocalError` Python raises when `if msg:` (line 71) reads the local
variable `msg` before any assignment.  `pending` means the outcome script ran
out while the loop would continue polling. -/
inductive NextResult (M : Type) where
  | msg (m : M)
  | error (e : LError)
  | nameError
  | closedExit
  | pending
deriving DecidableEq

/-- Observable trace of one `AsyncStream.next` invocation: its result, the
durations passed to `self.wait()` in order (the backoff suspensions,
lines 67 and 81), the final loop-local state, and the number of fetch
attempts performed. -/
structure NextTrace (M : Type) where
  result : NextResult M
  waits : List Nat
  state : LoopState M
  fetches : Nat
deriving DecidableEq

/-- The string built on line 65: `'Connection error: {0}'.format(e)`. -/
def connDesc (e : String) : String := "Connection error: " ++ e

/-- The string built on line 79:
`'Connection dropping fast. Request time: {0}s'.format(t)`.  The source
renders the elapsed seconds as a float; the model renders the millisecond
count. -/
def fastDesc (elapsedMs : Nat) : String :=
  "Connection dropping fast. Request time: " ++ toString elapsedMs ++ "ms"

/-- `AsyncStream._inc` (lines 33-38): double `self.timeout` if it is at most 8,
increment `self.retries`, and raise `HTTPError(code=599, message=message)` when
`max_retries > 0` and the new count has reached `max_retries`.  Returns the
mutated state together with the raised error, if any. -/
def incRun {M : Type} (maxRetries : Nat) (st : LoopState M) (message : String) :
    LoopState M × Option LError :=
  let t := if st.timeout ≤ 8 then 2 * st.timeout else st.timeout
  let r := st.retries + 1
  let st' : LoopState M := { st with timeout := t, retries := r }
  if 0 < maxRetries ∧ maxRetries ≤ r then (st', some (.httpError 599 message))
  else (st', none)

/-- Outcome of one iteration of the polling loop: either the invocation is
over (`done`, carrying the one-iteration trace), or the loop continues
(`again`), carrying the backoff suspension performed in this iteration, if
any, and the updated loop state. -/
inductive StepOut (M : Type) where
  | done (tr : NextTrace M)
  | again (wait : Option Nat) (st : LoopState M)
deriving DecidableEq

/-- Lines 71-82 of `AsyncStream.next`: the code after the try/except block.
`if msg:` reads the local variable (raising `UnboundLocalError` when it is
unbound); a truthy message resets `self.timeout := 1` and `self.retries := 0`
and returns it; a falsy one is penalised with `self.wait()` followed by
`self._inc(s)` when the fetch took less than 100 ms, and is otherwise a
legitimate empty long-poll cycle that loops again unchanged. -/
def postTry {M : Type} (maxRetries : Nat) (st : LoopState M) (elapsedMs : Nat) :
    StepOut M :=
  match st.msgVar with
  | none => .done ⟨.nameError, [], st, 1⟩
  | some (some m) => .done ⟨.msg m, [], { st with timeout := 1, retries := 0 }, 1⟩
  | some none =>
    if elapsedMs < 100 then
      match incRun maxRetries st (fastDesc elapsedMs) with
      | (st', some err) => .done ⟨.error err, [st.timeout], st', 1⟩
      | (st', none) => .again (some st.timeout) st'
    else .again none st

/-- One iteration of the polling loop body of `AsyncStream.next`
(lines 57-82), given the outcome of this iteration's fetch:
* any non-`HTTPError` exception (lines 63-69) suspends for the current
  backoff duration, runs `_inc` and continues;
* an `HTTPError` with code in `[300, 500)` is re-raised (lines 60-62); any
  other `HTTPError` is swallowed by the `except HTTPError` clause and control
  falls through to line 71 with the local `msg` unchanged;
* a normal fetch return binds `msg` and falls through to line 71. -/
def step {M : Type} (maxRetries : Nat) (st : LoopState M) (o : FetchOutcome M) :
    StepOut M :=
  match o with
  | .connError e =>
    match incRun maxRetries st (connDesc e) with
    | (st', some err) => .done ⟨.error err, [st.timeout], st', 1⟩
    | (st', none) => .again (some st.timeout) st'
  | .httpError c m _e =>
    if 300 ≤ c ∧ c < 500 then .done ⟨.error (.httpError c m), [], st, 1⟩
    else postTry maxRetries st _e
  | .ok m e => postTry maxRetries { st with msgVar := some m } e

/-- The polling loop of `AsyncStream.next` (lines 56-82), driven by a script
of fetch outcomes; when the script runs out while the loop would continue the
trace result is `pending`. -/
def runLoop {M : Type} (maxRetries : Nat) :
    LoopState M → List (FetchOutcome M) → NextTrace M
  | st, [] => ⟨.pending, [], st, 0⟩
  | st, o :: os =>
    match step maxRetries st o with
    | .done tr => tr
    | .again none st' =>
      let tr := runLoop maxRetries st' os
      ⟨tr.result, tr.waits, tr.state, tr.fetches + 1⟩
    | .again (some w) st' =>
      let tr := runLoop maxRetries st' os
      ⟨tr.result, w :: tr.waits, tr.state, tr.fetches + 1⟩

/-- One invocation of `AsyncStream.next` (lines 47-82): `self.timeout` is
initialised to 1000 and `self.retries` to 0 (lines 53-54), the local `msg` is
unbound, and the loop runs while the owning client is not closed (a closed
client makes the call end without producing a value). -/
def nextRun {M : Type} (closed : Bool) (maxRetries : Nat)
    (os : List (FetchOutcome M)) : NextTrace M :=
  if closed then ⟨.closedExit, [], ⟨1000, 0, none⟩, 0⟩
  else runLoop maxRetries ⟨1000, 0, none⟩ os

/-- Whether a fetch outcome is handled by the suspend-and-increment retry path
of the polling loop (a non-`HTTPError` exception, or a normal empty return
that took less than 100 ms). -/
def isRetryFailure {M : Type} : FetchOutcome M → Bool
  | .connError _ => true
  | .ok none e => decide (e < 100)
  | _ => false

/-- The description string `_inc` receives for a retryable failure. -/
def failDesc {M : Type} : FetchOutcome M → String
  | .connError e => connDesc e
  | .ok _ e => fastDesc e
  | .httpError _ _ _ => ""

/-- An HTTP response as seen by `AsyncLingerClient.get`: header map and
body. -/
structure Response where
  headers : List (String × String)
  body : String

/-- A decoded message: the dict built on lines 207-218 of
`AsyncLingerClient.get`. -/
structure Msg (B : Type) where
  id : String
  channel : String
  priority : String
  timeout : String
  linger : String
  deliver : String
  delivered : String
  received : String
  topic : String
  body : B
deriving DecidableEq

/-- `resp.headers[k]` (lines 208-215): a missing required header raises a
`KeyError`. -/
def requiredHeader (resp : Response) (k : String) : Except String String :=
  match resp.headers.lookup k with
  | some v => .ok v
  | none => .error ("KeyError: " ++ k)

/-- Response handling of `AsyncLingerClient.get` (lines 204-219): an empty
body returns `None` (line 205-206); otherwise the message dict is built from
the response headers (`x-linger-topic` defaulting to the empty string,
line 216) and the configured decoder applied to the body (line 217).  An
`Except.error` models a raised Python exception (`KeyError` for a missing
required header, or a decode failure). -/
def decodeGetResponse {B : Type} (dec : String → Except String B)
    (resp : Response) : Except String (Option (Msg B)) :=
  if resp.body = "" then .ok none
  else do
    let i ← requiredHeader resp ("x-linger-msg-id")
    let c ← requiredHeader resp ("x-linger-channel")
    let p ← requiredHeader resp ("x-linger-priority")
    let tm ← requiredHeader resp ("x-linger-timeout")
    let lg ← requiredHeader resp ("x-linger-linger")
    let dv ← requiredHeader resp ("x-linger-deliver")
    let dd ← requiredHeader resp ("x-linger-delivered")
    let rc ← requiredHeader resp ("x-linger-received")
    let tp := ((resp.headers.lookup ("x-linger-topic")).getD (""))
    let b ← dec resp.body
    .ok (some ⟨i, c, p, tm, lg, dv, dd, rc, tp, b⟩)

/-- `linger_url.endswith('/')` (line 153): the url's last character is a
slash. -/
def endsWithSlash (s : String) : Bool :=
  match s.toList.getLast? with
  | some ch => ch = '/'
  | none => false

/-- `linger_url.rstrip('/')` (line 154): remove every trailing occurrence of
the character. -/
def rstripChar (s : String) (c : Char) : String :=
  String.mk (s.toList.reverse.dropWhile (fun x => x = c)).reverse

/-- The client attributes the claims are about.  `url_` models the `_url`
attribute, `urlAttr` models the `url` attribute: `__init__` (lines 153-156)
assigns `_url` only when the base url ends with a slash, and otherwise
assigns the attribute `url` instead, leaving `_url` unset.  The encode
function is passed to the operations that need it.  `contentType` models
`_content_type`. -/
structure Client where
  closed : Bool
  url_ : Option String
  urlAttr : Option String
  contentType : String
deriving DecidableEq

/-- `AsyncLingerClient.__init__` url handling (lines 153-156). -/
def initClient (lingerUrl : String) (contentType : String) : Client :=
  if endsWithSlash lingerUrl then
    ⟨false, some (rstripChar lingerUrl '/'), none, contentType⟩
  else ⟨false, none, some lingerUrl, contentType⟩

/-- A Python exception raised by a facade operation before any HTTP request
is made: the `RuntimeError` from `_test_closed`, or the `AttributeError` from
reading the unset `_url` attribute. -/
inductive PyError where
  | runtimeError (msg : String)
  | attributeError
deriving DecidableEq

/-- An HTTP request issued by a facade operation. -/
structure Req where
  method : String
  url : String
  contentType : Option String
  body : Option String
deriving DecidableEq

/-- `AsyncLingerClient._test_closed` (lines 170-172). -/
def testClosed (c : Client) : Except PyError Unit :=
  if c.closed then .error (.runtimeError ("Client is closed.")) else .ok ()

/-- `'/'.join([self._url, part1, ...])`: reading `self._url` raises
`AttributeError` when the attribute was never assigned (see `initClient`). -/
def joinUrl (c : Client) (parts : List String) : Except PyError String :=
  match c.url_ with
  | none => .error .attributeError
  | some u => .ok (String.intercalate ("/") (u :: parts))

/-- Common shape of every one-shot facade operation: check the closed flag
first, then build the request url from `_url`, then issue exactly one HTTP
request.  The operation's value is the list of requests it issues. -/
def request (c : Client) (parts : List String) (method : String) (q : String)
    (ct : Option String) (body : Option String) : Except PyError (List Req) :=
  match testClosed c with
  | .error e => .error e
  | .ok _ =>
    match joinUrl c parts with
    | .error e => .error e
    | .ok u => .ok [⟨method, u ++ q, ct, body⟩]

/-- `AsyncLingerClient.channels` (lines 174-178). -/
def channels (c : Client) : Except PyError (List Req) :=
  request c [("channels")] ("GET") ("") none none

/-- `AsyncLingerClient.post` (lines 180-189); `enc` models the `_encode`
attribute applied to the message body. -/
def post (enc : String → String) (c : Client) (channel : String)
    (body : String) : Except PyError (List Req) :=
  request c [("channels"), channel] ("POST") ("") (some c.contentType)
    (some (enc body))

/-- `AsyncLingerClient.get` request building (lines 191-204); the response
handling is `decodeGetResponse`. -/
def get (c : Client) (channel : String) (nowait : Bool) :
    Except PyError (List Req) :=
  request c [("channels"), channel] ("GET")
    (if nowait then ("?nowait") else ("")) none none

/-- `AsyncLingerClient.channel_topics` (lines 232-238). -/
def channel_topics (c : Client) (channel : String) : Except PyError (List Req) :=
  request c [("channels"), channel, ("topics")] ("GET") ("") none none

/-- `AsyncLingerClient.channel_subscribe` (lines 240-246). -/
def channel_subscribe (c : Client) (channel : String) (topic : String) :
    Except PyError (List Req) :=
  request c [("channels"), channel, ("topics"), topic] ("PUT") ("") none none

/-- `AsyncLingerClient.channel_unsubscribe` (lines 248-254). -/
def channel_unsubscribe (c : Client) (channel : String) (topic : String) :
    Except PyError (List Req) :=
  request c [("channels"), channel, ("topics"), topic] ("DELETE") ("") none none

/-- `AsyncLingerClient.topics` (lines 256-261). -/
def topics (c : Client) : Except PyError (List Req) :=
  request c [("topics")] ("GET") ("") none none

/-- `AsyncLingerClient.publish` (lines 263-272). -/
def publish (enc : String → String) (c : Client) (topic : String)
    (body : String) : Except PyError (List Req) :=
  request c [("topics"), topic] ("POST") ("") (some c.contentType)
    (some (enc body))

/-- `AsyncLingerClient.topic_channels` (lines 274-280). -/
def topic_channels (c : Client) (topic : String) : Except PyError (List Req) :=
  request c [("topics"), topic, ("channels")] ("GET") ("") none none

/-- `AsyncLingerClient.delete` (lines 282-287); the message id is modelled
already stringified. -/
def delete (c : Client) (msgId : String) : Except PyError (List Req) :=
  request c [("messages"), msgId] ("DELETE") ("") none none

/-- `AsyncLingerClient.stats` (lines 289-294); the `topic` parameter is
accepted and ignored by the source. -/
def stats (c : Client) (_topic : String) : Except PyError (List Req) :=
  request c [("stats")] ("GET") ("") none none

/-- `AsyncLingerClient.close` (lines 164-168): the returned Bool records
whether the underlying `AsyncHTTPClient` was closed (i.e. resources released)
by this call. -/
def close (c : Client) : Client × Bool :=
  if c.closed then (c, false) else ({ c with closed := true }, true)

/- Helper lemmas characterising the embedded definitions. -/

theorem nextRun_open {M : Type} (mr : Nat) (os : List (FetchOutcome M)) :
    nextRun false mr os = runLoop mr ⟨1000, 0, none⟩ os := by
  simp [nextRun]

theorem incRun_fst {M : Type} (mr : Nat) (st : LoopState M) (msg : String) :
    (incRun mr st msg).1 =
      { st with timeout := if st.timeout ≤ 8 then 2 * st.timeout else st.timeout,
                retries := st.retries + 1 } := by
  simp only [incRun]
  split <;> rfl

theorem incRun_snd {M : Type} (mr : Nat) (st : LoopState M) (msg : String) :
    (incRun mr st msg).2 =
      if 0 < mr ∧ mr ≤ st.retries + 1 then some (.httpError 599 msg) else none := by
  simp only [incRun]
  split <;> rfl

theorem runLoop_connError_raise {M : Type} {mr : Nat} {st st' : LoopState M}
    {s : String} {e0 : LError} (h : incRun mr st (connDesc s) = (st', some e0))
    (os : List (FetchOutcome M)) :
    runLoop mr st (.connError s :: os) = ⟨.error e0, [st.timeout], st', 1⟩ := by
  simp [runLoop, step, h]

theorem runLoop_connError_cont {M : Type} {mr : Nat} {st st' : LoopState M}
    {s : String} (h : incRun mr st (connDesc s) = (st', none))
    (os : List (FetchOutcome M)) :
    runLoop mr st (.connError s :: os) =
      ⟨(runLoop mr st' os).result, st.timeout :: (runLoop mr st' os).waits,
       (runLoop mr st' os).state, (runLoop mr st' os).fetches + 1⟩ := by
  simp [runLoop, step, h]

theorem runLoop_http_fatal {M : Type} {mr cd : Nat} {st : LoopState M}
    {ms : String} {e : Nat} (h : 300 ≤ cd ∧ cd < 500)
    (os : List (FetchOutcome M)) :
    runLoop mr st (.httpError cd ms e :: os) =
      ⟨.error (.httpError cd ms), [], st, 1⟩ := by
  simp [runLoop, step, h]

theorem runLoop_http_unbound {M : Type} {mr cd : Nat} {st : LoopState M}
    {ms : String} {e : Nat} (hcd : ¬(300 ≤ cd ∧ cd < 500))
    (hmv : st.msgVar = none) (os : List (FetchOutcome M)) :
    runLoop mr st (.httpError cd ms e :: os) = ⟨.nameError, [], st, 1⟩ := by
  simp [runLoop, step, postTry, hcd, hmv]

theorem runLoop_ok_some {M : Type} (mr : Nat) (st : LoopState M) (m : M)
    (e : Nat) (os : List (FetchOutcome M)) :
    runLoop mr st (.ok (some m) e :: os) =
      ⟨.msg m, [], { st with timeout := 1, retries := 0, msgVar := some (some m) }, 1⟩ := by
  simp [runLoop, step, postTry]

theorem runLoop_ok_none_fast_raise {M : Type} {mr : Nat} {st st' : LoopState M}
    {e : Nat} {e0 : LError} (hfast : e < 100)
    (h : incRun mr { st with msgVar := some none } (fastDesc e) = (st', some e0))
    (os : List (FetchOutcome M)) :
    runLoop mr st (.ok none e :: os) = ⟨.error e0, [st.timeout], st', 1⟩ := by
  simp [runLoop, step, postTry, hfast, h]

theorem runLoop_ok_none_fast_cont {M : Type} {mr : Nat} {st st' : LoopState M}
    {e : Nat} (hfast : e < 100)
    (h : incRun mr { st with msgVar := some none } (fastDesc e) = (st', none))
    (os : List (FetchOutcome M)) :
    runLoop mr st (.ok none e :: os) =
      ⟨(runLoop mr st' os).result, st.timeout :: (runLoop mr st' os).waits,
       (runLoop mr st' os).state, (runLoop mr st' os).fetches + 1⟩ := by
  simp [runLoop, step, postTry, hfast, h]

theorem runLoop_ok_none_slow {M : Type} {mr : Nat} {st : LoopState M}
    {e : Nat} (hslow : ¬ e < 100) (os : List (FetchOutcome M)) :
    runLoop mr st (.ok none e :: os) =
      ⟨(runLoop mr { st with msgVar := some none } os).result,
       (runLoop mr { st with msgVar := some none } os).waits,
       (runLoop mr { st with msgVar := some none } os).state,
       (runLoop mr { st with msgVar := some none } os).fetches + 1⟩ := by
  simp [runLoop, step, postTry, hslow]

theorem runLoop_http_stale_fast_raise {M : Type} {mr cd : Nat}
    {st st' : LoopState M} {ms : String} {e : Nat} {e0 : LError}
    (hcd : ¬(300 ≤ cd ∧ cd < 500)) (hmv : st.msgVar = some none)
    (hfast : e < 100) (h : incRun mr st (fastDesc e) = (st', some e0))
    (os : List (FetchOutcome M)) :
    runLoop mr st (.httpError cd ms e :: os) = ⟨.error e0, [st.timeout], st', 1⟩ := by
  simp [runLoop, step, postTry, hcd, hmv, hfast, h]

theorem runLoop_http_stale_fast_cont {M : Type} {mr cd : Nat}
    {st st' : LoopState M} {ms : String} {e : Nat}
    (hcd : ¬(300 ≤ cd ∧ cd < 500)) (hmv : st.msgVar = some none)
    (hfast : e < 100) (h : incRun mr st (fastDesc e) = (st', none))
    (os : List (FetchOutcome M)) :
    runLoop mr st (.httpError cd ms e :: os) =
      ⟨(runLoop mr st' os).result, st.timeout :: (runLoop mr st' os).waits,
       (runLoop mr st' os).state, (runLoop mr st' os).fetches + 1⟩ := by
  simp [runLoop, step, postTry, hcd, hmv, hfast, h]

theorem runLoop_http_stale_slow {M : Type} {mr cd : Nat} {st : LoopState M}
    {ms : String} {e : Nat} (hcd : ¬(300 ≤ cd ∧ cd < 500))
    (hmv : st.msgVar = some none) (hslow : ¬ e < 100)
    (os : List (FetchOutcome M)) :
    runLoop mr st (.httpError cd ms e :: os) =
      ⟨(runLoop mr st os).result, (runLoop mr st os).waits,
       (runLoop mr st os).state, (runLoop mr st os).fetches + 1⟩ := by
  simp [runLoop, step, postTry, hcd, hmv, hslow]

/-- As long as the retry ceiling is not hit (`mr = 0`, or fewer failures than
the ceiling), a run of consecutive retryable failures keeps the loop going:
no error is raised, the retry counter counts every failure, and every failure
costs one fetch attempt. -/
theorem retry_pending {M : Type} (mr : Nat) :
    ∀ (l : List (FetchOutcome M)) (st : LoopState M),
      (∀ o ∈ l, isRetryFailure o = true) →
      (mr = 0 ∨ st.retries + l.length < mr) →
      (runLoop mr st l).result = NextResult.pending ∧
      (runLoop mr st l).state.retries = st.retries + l.length ∧
      (runLoop mr st l).fetches = l.length := by
  intro l
  induction l with
  | nil =>
    intro st _ _
    simp [runLoop]
  | cons o os ih =>
    intro st hall hcnt
    have hcond : ¬(0 < mr ∧ mr ≤ st.retries + 1) := by
      rcases hcnt with h | h
      · omega
      · simp only [List.length_cons] at h
        omega
    cases o with
    | connError s =>
      rcases h2 : incRun mr st (connDesc s) with ⟨st', err⟩
      have hsnd := incRun_snd mr st (connDesc s)
      rw [h2] at hsnd
      simp only [hcond, if_neg] at hsnd
      subst hsnd
      have hfst := incRun_fst mr st (connDesc s)
      rw [h2] at hfst
      simp only at hfst
      have hre : st'.retries = st.retries + 1 := by rw [hfst]
      rw [runLoop_connError_cont h2 os]
      obtain ⟨r1, r2, r3⟩ := ih st' (fun o ho => hall o (List.mem_cons_of_mem _ ho))
        (by rcases hcnt with h | h
            · exact Or.inl h
            · right
              simp only [List.length_cons] at h
              omega)
      refine ⟨r1, ?_, ?_⟩
      · simp only [r2, hre, List.length_cons]
        omega
      · simp [r3]
    | httpError cd ms e =>
      exact absurd (hall _ (List.mem_cons_self _ _)) (by simp [isRetryFailure])
    | ok mo e =>
      cases mo with
      | some m =>
        exact absurd (hall _ (List.mem_cons_self _ _)) (by simp [isRetryFailure])
      | none =>
        have hfast : e < 100 := by
          have := hall _ (List.mem_cons_self (FetchOutcome.ok none e) os)
          simpa [isRetryFailure] using this
        rcases h2 : incRun mr { st with msgVar := (some none : Option (Option M)) }
            (fastDesc e) with ⟨st', err⟩
        have hsnd := incRun_snd mr { st with msgVar := (some none : Option (Option M)) }
          (fastDesc e)
        rw [h2] at hsnd
        simp only at hsnd
        rw [if_neg hcond] at hsnd
        subst hsnd
        have hfst := incRun_fst mr { st with msgVar := (some none : Option (Option M)) }
          (fastDesc e)
        rw [h2] at hfst
        simp only at hfst
        have hre : st'.retries = st.retries + 1 := by rw [hfst]
        rw [runLoop_ok_none_fast_cont hfast h2 os]
        obtain ⟨r1, r2, r3⟩ := ih st' (fun o ho => hall o (List.mem_cons_of_mem _ ho))
          (by rcases hcnt with h | h
              · exact Or.inl h
              · right
                simp only [List.length_cons] at h
                omega)
        refine ⟨r1, ?_, ?_⟩
        · simp only [r2, hre, List.length_cons]
          omega
        · simp [r3]

/-- When the retry ceiling is positive and exactly reached by one more
failure, the loop raises `HTTPError(599, message)` carrying that last
failure's description, after consuming exactly the failures up to and
including it (any further scripted outcomes are not fetched). -/
theorem retry_raises {M : Type} (mr : Nat) :
    ∀ (l : List (FetchOutcome M)) (st : LoopState M) (o : FetchOutcome M)
      (rest : List (FetchOutcome M)),
      (∀ x ∈ l, isRetryFailure x = true) → isRetryFailure o = true →
      0 < mr → st.retries + l.length + 1 = mr →
      (runLoop mr st (l ++ o :: rest)).result =
        NextResult.error (.httpError 599 (failDesc o)) ∧
      (runLoop mr st (l ++ o :: rest)).fetches = l.length + 1 := by
  intro l
  induction l with
  | nil =>
    intro st o rest _ ho hpos hcnt
    simp only [List.length_nil] at hcnt
    have hcond : 0 < mr ∧ mr ≤ st.retries + 1 := by omega
    cases o with
    | connError s =>
      rcases h2 : incRun mr st (connDesc s) with ⟨st', err⟩
      have hsnd := incRun_snd mr st (connDesc s)
      rw [h2] at hsnd
      simp only at hsnd
      rw [if_pos hcond] at hsnd
      subst hsnd
      rw [List.nil_append, runLoop_connError_raise h2 rest]
      exact ⟨rfl, rfl⟩
    | httpError cd ms e =>
      exact absurd ho (by simp [isRetryFailure])
    | ok mo e =>
      cases mo with
      | some m => exact absurd ho (by simp [isRetryFailure])
      | none =>
        have hfast : e < 100 := by simpa [isRetryFailure] using ho
        rcases h2 : incRun mr { st with msgVar := (some none : Option (Option M)) }
            (fastDesc e) with ⟨st', err⟩
        have hsnd := incRun_snd mr { st with msgVar := (some none : Option (Option M)) }
          (fastDesc e)
        rw [h2] at hsnd
        simp only at hsnd
        rw [if_pos hcond] at hsnd
        subst hsnd
        rw [List.nil_append, runLoop_ok_none_fast_raise hfast h2 rest]
        exact ⟨rfl, rfl⟩
  | cons x xs ih =>
    intro st o rest hall ho hpos hcnt
    simp only [List.length_cons] at hcnt
    have hcond : ¬(0 < mr ∧ mr ≤ st.retries + 1) := by omega
    have hx := hall x (List.mem_cons_self _ _)
    cases x with
    | connError s =>
      rcases h2 : incRun mr st (connDesc s) with ⟨st', err⟩
      have hsnd := incRun_snd mr st (connDesc s)
      rw [h2] at hsnd
      simp only at hsnd
      rw [if_neg hcond] at hsnd
      subst hsnd
      have hfst := incRun_fst mr st (connDesc s)
      rw [h2] at hfst
      simp only at hfst
      have hre : st'.retries = st.retries + 1 := by rw [hfst]
      rw [List.cons_append, runLoop_connError_cont h2 (xs ++ o :: rest)]
      obtain ⟨r1, r2⟩ := ih st' o rest
        (fun y hy => hall y (List.mem_cons_of_mem _ hy)) ho hpos (by omega)
      exact ⟨r1, by simp [r2]⟩
    | httpError cd ms e =>
      exact absurd hx (by simp [isRetryFailure])
    | ok mo e =>
      cases mo with
      | some m => exact absurd hx (by simp [isRetryFailure])
      | none =>
        have hfast : e < 100 := by simpa [isRetryFailure] using hx
        rcases h2 : incRun mr { st with msgVar := (some none : Option (Option M)) }
            (fastDesc e) with ⟨st', err⟩
        have hsnd := incRun_snd mr { st with msgVar := (some none : Option (Option M)) }
          (fastDesc e)
        rw [h2] at hsnd
        simp only at hsnd
        rw [if_neg hcond] at hsnd
        subst hsnd
        have hfst := incRun_fst mr { st with msgVar := (some none : Option (Option M)) }
          (fastDesc e)
        rw [h2] at hfst
        simp only at hfst
        have hre : st'.retries = st.retries + 1 := by rw [hfst]
        rw [List.cons_append, runLoop_ok_none_fast_cont hfast h2 (xs ++ o :: rest)]
        obtain ⟨r1, r2⟩ := ih st' o rest
          (fun y hy => hall y (List.mem_cons_of_mem _ hy)) ho hpos (by omega)
        exact ⟨r1, by simp [r2]⟩

/-- Provided the loop-local `msg` variable does not hold a stale message on
entry (as is the case at the start of every `next()` invocation), the loop
only ever returns a message that some successful fetch in the script
delivered. -/
theorem runLoop_msg_from_ok {M : Type} (mr : Nat) :
    ∀ (os : List (FetchOutcome M)) (st : LoopState M) (m : M),
      (∀ m0 : M, st.msgVar ≠ some (some m0)) →
      (runLoop mr st os).result = NextResult.msg m →
      ∃ e, FetchOutcome.ok (some m) e ∈ os := by
  intro os
  induction os with
  | nil =>
    intro st m _ hres
    simp [runLoop] at hres
  | cons o os ih =>
    intro st m hinv hres
    cases o with
    | connError s =>
      rcases h2 : incRun mr st (connDesc s) with ⟨st', err⟩
      have hfst := incRun_fst mr st (connDesc s)
      rw [h2] at hfst
      simp only at hfst
      cases err with
      | some e0 =>
        rw [runLoop_connError_raise h2 os] at hres
        simp at hres
      | none =>
        rw [runLoop_connError_cont h2 os] at hres
        simp only at hres
        have hinv' : ∀ m0 : M, st'.msgVar ≠ some (some m0) := by
          intro m0
          rw [hfst]
          exact hinv m0
        obtain ⟨e, he⟩ := ih st' m hinv' hres
        exact ⟨e, List.mem_cons_of_mem _ he⟩
    | httpError cd ms e =>
      by_cases hcd : 300 ≤ cd ∧ cd < 500
      · rw [runLoop_http_fatal hcd os] at hres
        simp at hres
      · rcases hmv : st.msgVar with _ | mo
        · rw [runLoop_http_unbound hcd hmv os] at hres
          simp at hres
        · rcases mo with _ | m0
          · by_cases hfast : e < 100
            · rcases h2 : incRun mr st (fastDesc e) with ⟨st', err⟩
              have hfst := incRun_fst mr st (fastDesc e)
              rw [h2] at hfst
              simp only at hfst
              cases err with
              | some e0 =>
                rw [runLoop_http_stale_fast_raise hcd hmv hfast h2 os] at hres
                simp at hres
              | none =>
                rw [runLoop_http_stale_fast_cont hcd hmv hfast h2 os] at hres
                simp only at hres
                have hinv' : ∀ m0 : M, st'.msgVar ≠ some (some m0) := by
                  intro m0
                  rw [hfst]
                  exact hinv m0
                obtain ⟨e1, he⟩ := ih st' m hinv' hres
                exact ⟨e1, List.mem_cons_of_mem _ he⟩
            · rw [runLoop_http_stale_slow hcd hmv hfast os] at hres
              simp only at hres
              obtain ⟨e1, he⟩ := ih st m hinv hres
              exact ⟨e1, List.mem_cons_of_mem _ he⟩
          · exact absurd hmv (hinv m0)
    | ok mo e =>
      cases mo with
      | some m0 =>
        rw [runLoop_ok_some mr st m0 e os] at hres
        simp only [NextResult.msg.injEq] at hres
        subst hres
        exact ⟨e, List.mem_cons_self _ _⟩
      | none =>
        by_cases hfast : e < 100
        · rcases h2 : incRun mr { st with msgVar := (some none : Option (Option M)) }
              (fastDesc e) with ⟨st', err⟩
          have hfst := incRun_fst mr { st with msgVar := (some none : Option (Option M)) }
            (fastDesc e)
          rw [h2] at hfst
          simp only at hfst
          cases err with
          | some e0 =>
            rw [runLoop_ok_none_fast_raise hfast h2 os] at hres
            simp at hres
          | none =>
            rw [runLoop_ok_none_fast_cont hfast h2 os] at hres
            simp only at hres
            have hinv' : ∀ m0 : M, st'.msgVar ≠ some (some m0) := by
              intro m0
              rw [hfst]
              simp
            obtain ⟨e1, he⟩ := ih st' m hinv' hres
            exact ⟨e1, List.mem_cons_of_mem _ he⟩
        · rw [runLoop_ok_none_slow hfast os] at hres
          simp only at hres
          have hinv' : ∀ m0 : M,
              ({ st with msgVar := (some none : Option (Option M)) }).msgVar ≠
                some (some m0) := by
            simp
          obtain ⟨e1, he⟩ := ih _ m hinv' hres
          exact ⟨e1, List.mem_cons_of_mem _ he⟩

/-- C1: the claim states that within `next()` every transport-level failure
other than an HTTP status in [300,500) — explicitly including HTTP 5xx — is
handled by suspending for the current backoff duration, incrementing the
retry counter and looping again, and is never propagated and never leaves
the loop in an undefined state.  The code violates this: the
`except HTTPError` clause (lines 60-62) catches an `HTTPError` with code
outside [300,500) and simply does nothing with it, so control falls through
to `if msg:` (line 71).  On the first iteration the local `msg` is unbound
and an `UnboundLocalError` propagates to the caller with no backoff wait and
no retry increment (first conjunct); on a later iteration the stale falsy
`msg` sends a slow 5xx response straight back around the loop with no wait
and no increment (second conjunct).  The third conjunct shows the claimed
behaviour does hold for non-`HTTPError` connection-level exceptions, which
is the intended handling for all retryable failures. -/
theorem c1_http_5xx_exhibit :
    nextRun (M := Unit) false 0 [.httpError 500 ("server error") 50] =
      ⟨.nameError, [], ⟨1000, 0, none⟩, 1⟩ ∧
    nextRun (M := Unit) false 0
        [.ok none 200, .httpError 500 ("server error") 150] =
      ⟨.pending, [], ⟨1000, 0, some none⟩, 2⟩ ∧
    nextRun (M := Unit) false 0 [.connError ("dns failure")] =
      ⟨.pending, [1000], ⟨1000, 1, none⟩, 1⟩ :=
  ⟨rfl, rfl, rfl⟩

/-- C2: with `maxRetries = N > 0`, N consecutive retryable failures within
one `next()` invocation raise `HTTPError(599, ...)` carrying the last
failure's description exactly on the Nth failure (exactly N fetch attempts
are made even when more outcomes are scripted), no error is raised on any
shorter all-retryable run, and with `maxRetries = 0` no run of consecutive
retryable failures ever terminates the loop. -/
theorem c2_retries_exceeded {M : Type} (N : Nat) (l rest : List (FetchOutcome M))
    (o : FetchOutcome M)
    (hall : ∀ x ∈ l, isRetryFailure x = true) (ho : isRetryFailure o = true)
    (hN : l.length + 1 = N) :
    ((nextRun false N (l ++ o :: rest)).result =
        NextResult.error (.httpError 599 (failDesc o)) ∧
     (nextRun false N (l ++ o :: rest)).fetches = N) ∧
    (∀ lk : List (FetchOutcome M), (∀ x ∈ lk, isRetryFailure x = true) →
        lk.length < N → (nextRun false N lk).result = NextResult.pending) ∧
    (∀ lz : List (FetchOutcome M), (∀ x ∈ lz, isRetryFailure x = true) →
        (nextRun false 0 lz).result = NextResult.pending) := by
  have h0 : 0 < N := by omega
  have hmain := retry_raises N l (⟨1000, 0, none⟩ : LoopState M) o rest hall ho h0
    (by show 0 + l.length + 1 = N; omega)
  refine ⟨⟨?_, ?_⟩, ?_, ?_⟩
  · rw [nextRun_open]
    exact hmain.1
  · rw [nextRun_open, hmain.2]
    omega
  · intro lk hk hlen
    have := retry_pending N lk (⟨1000, 0, none⟩ : LoopState M) hk
      (Or.inr (by show 0 + lk.length < N; omega))
    rw [nextRun_open]
    exact this.1
  · intro lz hz
    have := retry_pending 0 lz (⟨1000, 0, none⟩ : LoopState M) hz (Or.inl rfl)
    rw [nextRun_open]
    exact this.1

/-- C2 witness: with `maxRetries = 2`, two consecutive connection failures
raise the 599 error carrying the second failure's description after exactly
two fetches; one failure leaves the loop pending; with `maxRetries = 0`
three failures leave the loop pending. -/
theorem c2_witness :
    (nextRun (M := Unit) false 2 [.connError ("a"), .connError ("b")]).result =
      NextResult.error (.httpError 599 ("Connection error: b")) ∧
    (nextRun (M := Unit) false 2 [.connError ("a"), .connError ("b")]).fetches = 2 ∧
    (nextRun (M := Unit) false 2 [.connError ("a")]).result = NextResult.pending ∧
    (nextRun (M := Unit) false 0
        [.connError ("a"), .connError ("b"), .connError ("c")]).result =
      NextResult.pending :=
  have h := c2_retries_exceeded (M := Unit) 2 [.connError ("a")] []
    (.connError ("b")) (by simp [isRetryFailure]) (by simp [isRetryFailure])
    (by simp)
  ⟨h.1.1, h.1.2, h.2.1 [.connError ("a")] (by simp [isRetryFailure]) (by simp),
   h.2.2 [.connError ("a"), .connError ("b"), .connError ("c")]
     (by simp [isRetryFailure])⟩

/-- C3: an `HTTPError` with code in [300,500) is re-raised immediately: no
backoff wait occurs, the loop state (including the retry counter, which is 0
on the first poll of an invocation) is untouched, and exactly one fetch is
made in that invocation no matter how many further outcomes are scripted. -/
theorem c3_fatal_status {M : Type} (mr cd e : Nat) (ms : String)
    (st : LoopState M) (os : List (FetchOutcome M))
    (h3 : 300 ≤ cd) (h5 : cd < 500) :
    runLoop mr st (.httpError cd ms e :: os) =
      ⟨.error (.httpError cd ms), [], st, 1⟩ ∧
    nextRun false mr (.httpError cd ms e :: os) =
      ⟨.error (.httpError cd ms), [], ⟨1000, 0, none⟩, 1⟩ := by
  refine ⟨runLoop_http_fatal ⟨h3, h5⟩ os, ?_⟩
  rw [nextRun_open]
  exact runLoop_http_fatal ⟨h3, h5⟩ os

/-- C3 witness: a 404 on the first poll propagates at once, with no waits,
retry counter still 0, and no further fetch attempts. -/
theorem c3_witness :
    (300 ≤ 404 ∧ 404 < 500) ∧
    nextRun (M := Unit) false 0
        [.httpError 404 ("not found") 5, .connError ("x")] =
      ⟨.error (.httpError 404 ("not found")), [], ⟨1000, 0, none⟩, 1⟩ :=
  ⟨by decide,
   (c3_fatal_status (M := Unit) 0 404 5 ("not found") ⟨1000, 0, none⟩
     [.connError ("x")] (by decide) (by decide)).2⟩

/-- C4: the claim states the backoff duration doubles on each retryable
failure until it reaches a capped maximum, then holds at the cap and never
exceeds it.  The code violates this: `_inc` doubles `self.timeout` only when
it is at most 8, but `next()` initialises `self.timeout` to 1000
(line 53), so at the value the loop actually operates at the doubling never
fires — the backoff holds constant at 1000 (first three conjuncts), a value
above the largest value (16) the doubling rule can itself produce from its
own guard region (last two conjuncts).  (Spec section 9 flags exactly this
unit mismatch as unintended.) -/
theorem c4_backoff_exhibit (t : Nat) (h : t ≤ 8) :
    (incRun (M := Unit) 0 ⟨1000, 0, none⟩ ("e")).1.timeout = 1000 ∧
    (nextRun (M := Unit) false 0 [.connError ("e"), .connError ("f")]).waits =
      [1000, 1000] ∧
    (nextRun (M := Unit) false 0
        [.connError ("e"), .connError ("f")]).state.timeout = 1000 ∧
    (incRun (M := Unit) 0 ⟨t, 0, none⟩ ("e")).1.timeout = 2 * t ∧
    2 * t ≤ 16 := by
  refine ⟨rfl, rfl, rfl, ?_, by omega⟩
  rw [incRun_fst]
  simp [h]

/-- C4 witness at the boundary of the doubling guard. -/
theorem c4_witness :
    8 ≤ 8 ∧
    ((incRun (M := Unit) 0 ⟨1000, 0, none⟩ ("e")).1.timeout = 1000 ∧
     (nextRun (M := Unit) false 0 [.connError ("e"), .connError ("f")]).waits =
       [1000, 1000] ∧
     (nextRun (M := Unit) false 0
         [.connError ("e"), .connError ("f")]).state.timeout = 1000 ∧
     (incRun (M := Unit) 0 ⟨8, 0, none⟩ ("e")).1.timeout = 2 * 8 ∧
     2 * 8 ≤ 16) :=
  ⟨by decide, c4_backoff_exhibit 8 (by decide)⟩

/-- C5 counterexample: the claim says the success-path reset makes the first
backoff interval after a subsequent failure equal the minimum (1).  A
success does set `timeout := 1` and `retries := 0` before returning (first
three conjuncts), but a subsequent failure can only be observed in a new
`next()` invocation, which re-initialises `timeout := 1000` on entry
(line 53), so the first backoff interval after the success is 1000, not the
minimum 1 (fourth conjunct). -/
theorem c5_counterexample :
    (nextRun (M := Unit) false 0 [.ok (some ()) 200]).result =
      NextResult.msg () ∧
    (nextRun (M := Unit) false 0 [.ok (some ()) 200]).state.timeout = 1 ∧
    (nextRun (M := Unit) false 0 [.ok (some ()) 200]).state.retries = 0 ∧
    (nextRun (M := Unit) false 0 [.connError ("e")]).waits = [1000] ∧
    (1000 : Nat) ≠ 1 :=
  ⟨rfl, rfl, rfl, rfl, by decide⟩

/-- C5 (amended): whenever the fetch returns a message, `next()` sets the
retry counter to 0 and the backoff duration to 1 before returning it, and
the success path is the only path of `next()` that produces a message;
however, because every `next()` invocation re-initialises the backoff
duration to 1000 on entry, the first backoff interval after a subsequent
failure is 1000 (the initialisation value), not the post-success value 1. -/
theorem c5_amended_reset :
    (∀ (M : Type) (mr : Nat) (st : LoopState M) (m : M) (e : Nat)
        (os : List (FetchOutcome M)),
      runLoop mr st (.ok (some m) e :: os) =
        ⟨.msg m, [],
         { st with timeout := 1, retries := 0, msgVar := some (some m) }, 1⟩) ∧
    (∀ (M : Type) (mr : Nat) (os : List (FetchOutcome M)) (m : M),
      (nextRun false mr os).result = NextResult.msg m →
      ∃ e, FetchOutcome.ok (some m) e ∈ os) ∧
    (∀ (M : Type) (mr : Nat) (s : String) (os : List (FetchOutcome M)),
      (nextRun false mr (.connError s :: os)).waits.head? = some 1000) := by
  refine ⟨?_, ?_, ?_⟩
  · intro M mr st m e os
    exact runLoop_ok_some mr st m e os
  · intro M mr os m hres
    rw [nextRun_open] at hres
    exact runLoop_msg_from_ok mr os ⟨1000, 0, none⟩ m (by simp) hres
  · intro M mr s os
    rw [nextRun_open]
    rcases h2 : incRun mr (⟨1000, 0, none⟩ : LoopState M) (connDesc s)
      with ⟨st', err⟩
    cases err with
    | some e0 =>
      rw [runLoop_connError_raise h2 os]
      rfl
    | none =>
      rw [runLoop_connError_cont h2 os]
      rfl

/-- C5 (amended) witness. -/
theorem c5_amended_witness :
    runLoop (M := Unit) 0 ⟨1000, 0, none⟩ [.ok (some ()) 200] =
      ⟨.msg (), [], ⟨1, 0, some (some ())⟩, 1⟩ ∧
    (∃ e, FetchOutcome.ok (M := Unit) (some ()) e ∈
      [FetchOutcome.ok (M := Unit) (some ()) 200]) ∧
    (nextRun (M := Unit) false 0 [.connError ("x")]).waits.head? = some 1000 :=
  ⟨c5_amended_reset.1 Unit 0 ⟨1000, 0, none⟩ () 200 [],
   c5_amended_reset.2.1 Unit 0 [FetchOutcome.ok (some ()) 200] () rfl,
   c5_amended_reset.2.2 Unit 0 ("x") []⟩

/-- C6: on a successful fetch that returns no message, elapsed time below
100 ms triggers exactly the connection-failure handling (suspend for the
current backoff duration, then `_inc`, then loop; first conjunct — compare
the connection-failure path in the third conjunct, which has the same
shape), while elapsed time at or above 100 ms loops again with the retry
counter and backoff duration unchanged (second conjunct). -/
theorem c6_empty_poll {M : Type} (mr : Nat) (st : LoopState M) (e : Nat)
    (os : List (FetchOutcome M)) :
    (e < 100 → runLoop mr st (.ok none e :: os) =
        (match incRun mr { st with msgVar := some none } (fastDesc e) with
         | (st', some err) => (⟨.error err, [st.timeout], st', 1⟩ : NextTrace M)
         | (st', none) =>
           ⟨(runLoop mr st' os).result, st.timeout :: (runLoop mr st' os).waits,
            (runLoop mr st' os).state, (runLoop mr st' os).fetches + 1⟩)) ∧
    (100 ≤ e → runLoop mr st (.ok none e :: os) =
        ⟨(runLoop mr { st with msgVar := some none } os).result,
         (runLoop mr { st with msgVar := some none } os).waits,
         (runLoop mr { st with msgVar := some none } os).state,
         (runLoop mr { st with msgVar := some none } os).fetches + 1⟩) ∧
    (∀ s : String, runLoop mr st (.connError s :: os) =
        (match incRun mr st (connDesc s) with
         | (st', some err) => (⟨.error err, [st.timeout], st', 1⟩ : NextTrace M)
         | (st', none) =>
           ⟨(runLoop mr st' os).result, st.timeout :: (runLoop mr st' os).waits,
            (runLoop mr st' os).state, (runLoop mr st' os).fetches + 1⟩)) := by
  refine ⟨?_, ?_, ?_⟩
  · intro hfast
    rcases h2 : incRun mr { st with msgVar := (some none : Option (Option M)) }
      (fastDesc e) with ⟨st', err⟩
    cases err with
    | some e0 =>
      rw [runLoop_ok_none_fast_raise hfast h2 os]
    | none =>
      rw [runLoop_ok_none_fast_cont hfast h2 os]
  · intro hslow
    exact runLoop_ok_none_slow (by omega) os
  · intro s
    rcases h2 : incRun mr st (connDesc s) with ⟨st', err⟩
    cases err with
    | some e0 =>
      rw [runLoop_connError_raise h2 os]
    | none =>
      rw [runLoop_connError_cont h2 os]

/-- C6 witness: a 50 ms empty poll suspends for the current backoff (1000)
and increments the retry counter; a 200 ms empty poll loops again with both
unchanged. -/
theorem c6_witness :
    (50 < 100 ∧
      runLoop (M := Unit) 0 ⟨1000, 0, none⟩ [.ok none 50] =
        ⟨.pending, [1000], ⟨1000, 1, some none⟩, 1⟩) ∧
    (100 ≤ 200 ∧
      runLoop (M := Unit) 0 ⟨1000, 0, none⟩ [.ok none 200] =
        ⟨.pending, [], ⟨1000, 0, some none⟩, 1⟩) :=
  ⟨⟨by decide, (c6_empty_poll 0 ⟨1000, 0, none⟩ 50 []).1 (by decide)⟩,
   ⟨by decide, (c6_empty_poll 0 ⟨1000, 0, none⟩ 200 []).2.1 (by decide)⟩⟩

/-- C7: an HTTP response with an empty body makes the get/decode operation
return the absent value: no exception is raised, no header is read, the
decoder is not invoked, and no Message is constructed. -/
theorem c7_empty_body {B : Type} (dec : String → Except String B)
    (resp : Response) (h : resp.body = "") :
    decodeGetResponse dec resp = .ok none := by
  simp [decodeGetResponse, h]

/-- C7 witness, with a decoder that rejects every body: the empty-body path
still returns the absent value without raising. -/
theorem c7_witness :
    (Response.mk [(("x-linger-msg-id"), ("m1"))] ("")).body = "" ∧
    decodeGetResponse (fun _ => (Except.error ("decode failure") : Except String String))
      (Response.mk [(("x-linger-msg-id"), ("m1"))] ("")) = .ok none :=
  ⟨rfl, c7_empty_body (fun _ => Except.error ("decode failure"))
    (Response.mk [(("x-linger-msg-id"), ("m1"))] ("")) rfl⟩

/-- C8: an HTTP response with a non-empty body yields a Message whose id,
channel, priority, timeout, linger, deliver, delivered, received and topic
fields equal exactly the corresponding response headers (topic defaulting to
the empty string when its header is absent) and whose body is the configured
decoder applied to the response body. -/
theorem c8_nonempty_body {B : Type} (dec : String → Except String B)
    (resp : Response) (i c p tm lg dv dd rc : String) (tpOpt : Option String)
    (b : B)
    (hb : ¬ resp.body = "")
    (h1 : resp.headers.lookup ("x-linger-msg-id") = some i)
    (h2 : resp.headers.lookup ("x-linger-channel") = some c)
    (h3 : resp.headers.lookup ("x-linger-priority") = some p)
    (h4 : resp.headers.lookup ("x-linger-timeout") = some tm)
    (h5 : resp.headers.lookup ("x-linger-linger") = some lg)
    (h6 : resp.headers.lookup ("x-linger-deliver") = some dv)
    (h7 : resp.headers.lookup ("x-linger-delivered") = some dd)
    (h8 : resp.headers.lookup ("x-linger-received") = some rc)
    (h9 : resp.headers.lookup ("x-linger-topic") = tpOpt)
    (hd : dec resp.body = .ok b) :
    decodeGetResponse dec resp =
      .ok (some ⟨i, c, p, tm, lg, dv, dd, rc, tpOpt.getD (""), b⟩) := by
  simp [decodeGetResponse, requiredHeader, hb, h1, h2, h3, h4, h5, h6, h7, h8,
    h9, hd]
  rfl

/-- C8 witness: a concrete response with all metadata headers and body
decodes to exactly the Message built from them. -/
theorem c8_witness :
    decodeGetResponse (fun s => (Except.ok s : Except String String))
      (Response.mk
        [(("x-linger-msg-id"), ("m1")), (("x-linger-channel"), ("ch1")),
         (("x-linger-priority"), ("5")), (("x-linger-timeout"), ("30")),
         (("x-linger-linger"), ("60")), (("x-linger-deliver"), ("3")),
         (("x-linger-delivered"), ("1")), (("x-linger-received"), ("99")),
         (("x-linger-topic"), ("t1"))] ("payload")) =
      .ok (some ⟨("m1"), ("ch1"), ("5"), ("30"), ("60"), ("3"), ("1"), ("99"),
        ("t1"), ("payload")⟩) :=
  c8_nonempty_body (fun s => Except.ok s) _ ("m1") ("ch1") ("5") ("30") ("60")
    ("3") ("1") ("99") (some ("t1")) ("payload") (by decide) rfl rfl rfl rfl
    rfl rfl rfl rfl rfl rfl

/-- C9: after `close()`, every one-shot operation raises
`RuntimeError('Client is closed.')` from `_test_closed` before issuing any
HTTP request (the operation's value is its request trace, so an error result
means no request was made), and a second `close()` is a no-op: it returns
the client unchanged and does not release resources again. -/
theorem c9_closed_client (c : Client) (enc : String → String)
    (ch tp mid bd : String) (nw : Bool) :
    channels (close c).1 = .error (.runtimeError ("Client is closed.")) ∧
    post enc (close c).1 ch bd = .error (.runtimeError ("Client is closed.")) ∧
    get (close c).1 ch nw = .error (.runtimeError ("Client is closed.")) ∧
    channel_topics (close c).1 ch =
      .error (.runtimeError ("Client is closed.")) ∧
    channel_subscribe (close c).1 ch tp =
      .error (.runtimeError ("Client is closed.")) ∧
    channel_unsubscribe (close c).1 ch tp =
      .error (.runtimeError ("Client is closed.")) ∧
    topics (close c).1 = .error (.runtimeError ("Client is closed.")) ∧
    publish enc (close c).1 tp bd =
      .error (.runtimeError ("Client is closed.")) ∧
    topic_channels (close c).1 tp =
      .error (.runtimeError ("Client is closed.")) ∧
    delete (close c).1 mid = .error (.runtimeError ("Client is closed.")) ∧
    stats (close c).1 tp = .error (.runtimeError ("Client is closed.")) ∧
    close (close c).1 = ((close c).1, false) := by
  have hc : ((close c).1).closed = true := by
    by_cases h : c.closed <;> simp [close, h]
  generalize (close c).1 = d at hc ⊢
  refine ⟨?_, ?_, ?_, ?_, ?_, ?_, ?_, ?_, ?_, ?_, ?_, ?_⟩ <;>
    simp [channels, post, get, channel_topics, channel_subscribe,
      channel_unsubscribe, topics, publish, topic_channels, delete, stats,
      request, testClosed, close, hc]

/-- C10: constructing a client from a base url that does not end in a slash
takes the `else` branch of `__init__`, which assigns the attribute `url`
instead of `_url`; `_url` stays unset, so every one-shot operation fails
with an `AttributeError` while building its request url.  Constructing from
a url that does end in a slash sets `_url` (with trailing slashes stripped)
and the operations build their urls from it. -/
theorem c10_url_no_slash (url ct ch tp mid bd : String) (enc : String → String)
    (nw : Bool) (h : endsWithSlash url = false) :
    (initClient url ct).url_ = none ∧
    (initClient url ct).urlAttr = some url ∧
    channels (initClient url ct) = .error .attributeError ∧
    post enc (initClient url ct) ch bd = .error .attributeError ∧
    get (initClient url ct) ch nw = .error .attributeError ∧
    channel_topics (initClient url ct) ch = .error .attributeError ∧
    channel_subscribe (initClient url ct) ch tp = .error .attributeError ∧
    channel_unsubscribe (initClient url ct) ch tp = .error .attributeError ∧
    topics (initClient url ct) = .error .attributeError ∧
    publish enc (initClient url ct) tp bd = .error .attributeError ∧
    topic_channels (initClient url ct) tp = .error .attributeError ∧
    delete (initClient url ct) mid = .error .attributeError ∧
    stats (initClient url ct) tp = .error .attributeError ∧
    (∀ u : String, endsWithSlash u = true →
      (initClient u ct).url_ = some (rstripChar u '/') ∧
      channels (initClient u ct) =
        .ok [⟨("GET"), String.intercalate ("/") [rstripChar u '/', ("channels")],
          none, none⟩]) := by
  have hcl : initClient url ct = ⟨false, none, some url, ct⟩ := by
    simp [initClient, h]
  refine ⟨?_, ?_, ?_, ?_, ?_, ?_, ?_, ?_, ?_, ?_, ?_, ?_, ?_, ?_⟩ <;>
    first
    | (intro u hu
       refine ⟨?_, ?_⟩ <;>
         simp [initClient, hu, channels, request, testClosed, joinUrl,
           String.intercalate])
    | simp [hcl, channels, post, get, channel_topics, channel_subscribe,
        channel_unsubscribe, topics, publish, topic_channels, delete, stats,
        request, testClosed, joinUrl]

/-- C10 witness at a concrete url without a trailing slash. -/
theorem c10_witness :
    endsWithSlash ("http://x") = false ∧
    ((initClient ("http://x") ("ct")).url_ = none ∧
     (initClient ("http://x") ("ct")).urlAttr = some ("http://x") ∧
     channels (initClient ("http://x") ("ct")) = .error .attributeError ∧
     post (fun s => s) (initClient ("http://x") ("ct")) ("c") ("b") =
       .error .attributeError ∧
     get (initClient ("http://x") ("ct")) ("c") false =
       .error .attributeError ∧
     channel_topics (initClient ("http://x") ("ct")) ("c") =
       .error .attributeError ∧
     channel_subscribe (initClient ("http://x") ("ct")) ("c") ("t") =
       .error .attributeError ∧
     channel_unsubscribe (initClient ("http://x") ("ct")) ("c") ("t") =
       .error .attributeError ∧
     topics (initClient ("http://x") ("ct")) = .error .attributeError ∧
     publish (fun s => s) (initClient ("http://x") ("ct")) ("t") ("b") =
       .error .attributeError ∧
     topic_channels (initClient ("http://x") ("ct")) ("t") =
       .error .attributeError ∧
     delete (initClient ("http://x") ("ct")) ("m") = .error .attributeError ∧
     stats (initClient ("http://x") ("ct")) ("t") = .error .attributeError ∧
     (∀ u : String, endsWithSlash u = true →
       (initClient u ("ct")).url_ = some (rstripChar u '/') ∧
       channels (initClient u ("ct")) =
         .ok [⟨("GET"),
           String.intercalate ("/") [rstripChar u '/', ("channels")],
           none, none⟩])) :=
  ⟨by decide,
   c10_url_no_slash ("http://x") ("ct") ("c") ("t") ("m") ("b") (fun s => s)
     false (by decide)⟩

end Lingerclient
